import Mathlib

/-!
Verification of the dYdX exchange adapter (pyexchange/dydx.py).

The adapter is a thin translation layer: it rescales wire-format numbers
(wei-style integers and decimal strings) into normalized fixed-point values
and maps raw API payloads into normalized Order/Trade records.  Python
numeric values are modelled exactly as rationals; Python `int(x)` is
truncation toward zero, `eth_utils.from_wei` is exact division by a power of
ten, and `round(Decimal, n)` is round-half-even at `n` decimal places.
-/

namespace Dydx

/-- Python `int(x)` applied to a float or Decimal: truncation toward zero. -/
def pyTrunc (x : ℚ) : ℤ := Int.tdiv x.num (x.den : ℤ)

/-- Python `10 ** z` for an integer exponent `z`, modelled exactly. -/
def pow10 (z : ℤ) : ℚ := if 0 ≤ z then ((10:ℚ) ^ z.natAbs) else ((10:ℚ) ^ z.natAbs)⁻¹

/-- `eth_utils.from_wei(n, "ether")`: exact division by `10 ^ 18`. -/
def from_wei_ether (n : ℤ) : ℚ := (n : ℚ) / (10:ℚ) ^ (18:ℕ)

/-- `eth_utils.from_wei(n, "mwei")`: exact division by `10 ^ 6`. -/
def from_wei_mwei (n : ℤ) : ℚ := (n : ℚ) / (10:ℚ) ^ (6:ℕ)

/-- Floor of a rational, computed on the normalized numerator/denominator. -/
def ratFloor (x : ℚ) : ℤ := x.num / (x.den : ℤ)

/-- Round to the nearest integer, ties to the even integer: the rounding of
Python `round` on a `Decimal` under the default `ROUND_HALF_EVEN` context. -/
def roundHalfEven (x : ℚ) : ℤ :=
  let f := ratFloor x
  if x - (f : ℚ) < 1/2 then f
  else if (1:ℚ)/2 < x - (f : ℚ) then f + 1
  else if f % 2 = 0 then f else f + 1

/-- Python `round(x, n)` on a `Decimal`: half-even at `n` decimal places. -/
def roundToDecimals (n : ℕ) (x : ℚ) : ℚ :=
  ((roundHalfEven (x * (10:ℚ) ^ n) : ℤ) : ℚ) / (10:ℚ) ^ n

/-- The fields of one entry of `market_info[pair]` that the adapter reads:
`int(market_info[pair]["quoteCurrency"]["decimals"])`, the number of decimal
places of the `minimumTickSize` string
(`abs(Decimal(...).as_tuple().exponent)`), and
`market_info[pair]["baseCurrency"]["soloMarketId"]`. -/
structure MarketInfo where
  quoteDecimals : ℤ
  tickDecimals : ℕ
  baseSoloMarketId : ℤ
deriving DecidableEq

/-- One raw item of `client.get_my_orders()["orders"]`, with its numeric
string fields already parsed (`float(item["price"])`,
`float(item["baseAmount"])`) and `createdAt` parsed to epoch seconds. -/
structure RawOrder where
  id : String
  createdAt : ℤ
  side : String
  price : ℚ
  baseAmount : ℚ
  status : String
deriving DecidableEq

/-- One raw fill of `client.get_fills()["fills"]` / `get_my_fills()["fills"]`,
with numeric string fields already parsed. -/
structure RawFill where
  uuid : String
  createdAt : ℤ
  market : String
  side : String
  price : ℚ
  amount : ℚ
  status : String
deriving DecidableEq

/-- The normalized Order record (pyexchange/model.py shape used by dydx.py). -/
structure Order where
  order_id : String
  timestamp : ℤ
  pair : String
  is_sell : Bool
  price : ℚ
  amount : ℚ
deriving DecidableEq

/-- The normalized Trade record (pyexchange/model.py shape used by dydx.py). -/
structure Trade where
  trade_id : String
  timestamp : ℤ
  pair : String
  is_sell : Bool
  price : ℚ
  amount : ℚ
deriving DecidableEq

namespace DydxOrder

/-- `DydxOrder.from_message` (dydx.py lines 36-50). -/
def from_message (item : RawOrder) (pair : String) (market_info : MarketInfo) : Order :=
  let decimal_exponent : ℤ := 18 - market_info.quoteDecimals
  let price : ℚ := item.price * pow10 decimal_exponent
  { order_id := item.id
    timestamp := item.createdAt
    pair := pair
    is_sell := item.side == "SELL"
    price := price
    amount := from_wei_ether |pyTrunc item.baseAmount| }

end DydxOrder

namespace DydxTrade

/-- `DydxTrade.from_message` (dydx.py lines 53-68). -/
def from_message (trade : RawFill) (pair : String) (market_info : MarketInfo) : Trade :=
  let decimal_exponent : ℤ := 18 - market_info.quoteDecimals
  let price : ℚ := trade.price * pow10 decimal_exponent
  { trade_id := trade.uuid
    timestamp := trade.createdAt
    pair := trade.market
    is_sell := trade.side == "SELL"
    price := price
    amount := from_wei_ether |pyTrunc trade.amount| }

end DydxTrade

/-- A raw balance entry as consumed by `_convert_balance_to_wad`: the parsed
`float(balance["wei"])` value. -/
structure BalanceIn where
  wei : ℚ
deriving DecidableEq

/-- A balance entry after `_balances_to_list`: the original wire value, the
optional `currency` label added by the market-id lookup, and the derived
`wad` fixed-point amount. -/
structure BalanceOut where
  wei : ℚ
  currency : Option String
  wad : ℚ
deriving DecidableEq

/-- `dydx.constants.MARKET_ETH` (external constant of the dydx client). -/
def MARKET_ETH : ℤ := 0

/-- `dydx.constants.MARKET_SAI` (external constant of the dydx client). -/
def MARKET_SAI : ℤ := 1

/-- `dydx.constants.MARKET_USDC` (external constant of the dydx client). -/
def MARKET_USDC : ℤ := 2

/-- `dydx.constants.MARKET_DAI` (external constant of the dydx client). -/
def MARKET_DAI : ℤ := 3

/-- `DydxApi._convert_balance_to_wad` (dydx.py lines 97-116), returning the
derived `wad` value: converts with ether (`10^18`) scaling, overridden by
mwei (`10^6`) scaling when `decimals == 6`, and restores the sign at the
end. -/
def convert_balance_to_wad (balance : BalanceIn) (decimals : ℤ) : ℚ :=
  let wei_balance : ℚ := balance.wei
  let converted₀ : ℚ := from_wei_ether |pyTrunc wei_balance|
  let converted : ℚ :=
    if decimals = 6 then from_wei_mwei |pyTrunc wei_balance| else converted₀
  if wei_balance < 0 then -converted else converted

/-- The loop body of `DydxApi._balances_to_list` (dydx.py lines 122-135):
the if/elif chain over the four known market ids picks the currency label
and the decimal count (6 only for USDC, otherwise the default 18), with no
else-branch for unknown ids. -/
def balance_entry (market_id : ℤ) (balance : BalanceIn) : BalanceOut :=
  if market_id = MARKET_ETH then
    { wei := balance.wei, currency := some "ETH",
      wad := convert_balance_to_wad balance 18 }
  else if market_id = MARKET_SAI then
    { wei := balance.wei, currency := some "SAI",
      wad := convert_balance_to_wad balance 18 }
  else if market_id = MARKET_USDC then
    { wei := balance.wei, currency := some "USDC",
      wad := convert_balance_to_wad balance 6 }
  else if market_id = MARKET_DAI then
    { wei := balance.wei, currency := some "DAI",
      wad := convert_balance_to_wad balance 18 }
  else
    { wei := balance.wei, currency := none,
      wad := convert_balance_to_wad balance 18 }

/-- `DydxApi._balances_to_list` (dydx.py lines 119-137). -/
def balances_to_list (balances : List (ℤ × BalanceIn)) : List BalanceOut :=
  balances.map fun p => balance_entry p.1 p.2

/-- `DydxApi.get_orders` (dydx.py lines 143-158), applied to the raw order
list returned by the client: keeps the orders whose status is `"OPEN"` and
maps them through `DydxOrder.from_message`. -/
def get_orders (orders : List RawOrder) (pair : String) (market_info : MarketInfo) : List Order :=
  (orders.filter fun order => order.status == "OPEN").map
    fun item => DydxOrder.from_message item pair market_info

/-- `DydxApi.get_trades` (dydx.py lines 220-232), applied to the raw fill
list returned by the client: maps every fill, with no status filtering. -/
def get_trades (fills : List RawFill) (pair : String) (market_info : MarketInfo) : List Trade :=
  fills.map fun item => DydxTrade.from_message item pair market_info

/-- `DydxApi.get_all_trades` (dydx.py lines 234-247): the
`assert page_number == 1` precondition is modelled as an `Option` guard;
on page 1 it keeps the fills whose status is `"CONFIRMED"` and maps them
through `DydxTrade.from_message`. -/
def get_all_trades (page_number : ℤ) (fills : List RawFill) (pair : String)
    (market_info : MarketInfo) : Option (List Trade) :=
  if page_number = 1 then
    some ((fills.filter fun item => item.status == "CONFIRMED").map
      fun item => DydxTrade.from_message item pair market_info)
  else
    none

/-- The price computation of `DydxApi.place_order` (dydx.py lines 188-197):
`round(Decimal(price * (10 ** ((18 - quoteDecimals) * -1))), tick_size)`,
where `tick_size` is the number of decimal places of `minimumTickSize`. -/
def place_order_price (market_info : MarketInfo) (price : ℚ) : ℚ :=
  let tick_size : ℕ := market_info.tickDecimals
  let decimal_exponent : ℤ := (18 - market_info.quoteDecimals) * (-1)
  roundToDecimals tick_size (price * pow10 decimal_exponent)

/-- `DydxApi.cancel_order` (dydx.py lines 212-218), as a function of the id
reported by the client for the cancelled order and the requested id. -/
def cancel_order (canceled_order_id : String) (order_id : String) : Bool :=
  canceled_order_id == order_id

theorem pow10_mul_pow10_neg (z : ℤ) : pow10 z * pow10 (-z) = 1 := by
  have hne : ((10:ℚ) ^ z.natAbs) ≠ 0 := pow_ne_zero _ (by norm_num)
  unfold pow10
  rw [Int.natAbs_neg]
  by_cases h : (0:ℤ) ≤ z
  · by_cases h2 : (0:ℤ) ≤ -z
    · have hz : z = 0 := by omega
      subst hz
      norm_num
    · rw [if_pos h, if_neg h2]
      exact mul_inv_cancel₀ hne
  · have h2 : (0:ℤ) ≤ -z := by omega
    rw [if_neg h, if_pos h2]
    exact inv_mul_cancel₀ hne

theorem pow10_neg_mul_pow10 (z : ℤ) : pow10 (-z) * pow10 z = 1 := by
  have h := pow10_mul_pow10_neg (-z)
  rwa [neg_neg] at h

theorem pyTrunc_intCast (n : ℤ) : pyTrunc (n : ℚ) = n := by
  unfold pyTrunc
  rw [Rat.num_intCast, Rat.den_intCast]
  simp

/-- C2: for every raw order or fill item and every market whose
quote-currency decimal count is d, the normalized Order/Trade price equals
the wire price multiplied by 10^(18−d); with d = 18 a wire price of 100
maps to 100, and with d = 6 it maps to 100 × 10^12. -/
theorem from_message_price_scaling :
    (∀ (item : RawOrder) (pair : String) (market_info : MarketInfo),
        (DydxOrder.from_message item pair market_info).price
          = item.price * pow10 (18 - market_info.quoteDecimals))
    ∧ (∀ (trade : RawFill) (pair : String) (market_info : MarketInfo),
        (DydxTrade.from_message trade pair market_info).price
          = trade.price * pow10 (18 - market_info.quoteDecimals))
    ∧ (DydxOrder.from_message ⟨"o1", 0, "BUY", 100, 0, "OPEN"⟩ "WETH-DAI"
          ⟨18, 2, 0⟩).price = 100
    ∧ (DydxOrder.from_message ⟨"o1", 0, "BUY", 100, 0, "OPEN"⟩ "WETH-USDC"
          ⟨6, 2, 0⟩).price = 100 * 1000000000000 := by
  refine ⟨fun item pair market_info => rfl, fun trade pair market_info => rfl, ?_, ?_⟩
  · norm_num [DydxOrder.from_message, pow10]
  · norm_num [DydxOrder.from_message, pow10]

/-- C4: cancel_order returns true iff the cancelled-order id reported by
the client equals the requested id; on any mismatch it returns false (a
boolean result, never an error). -/
theorem cancel_order_id_match :
    ∀ (canceled_order_id order_id : String),
      (cancel_order canceled_order_id order_id = true ↔ canceled_order_id = order_id)
      ∧ (cancel_order canceled_order_id order_id = false ↔ canceled_order_id ≠ order_id) := by
  intro c o
  constructor
  · simp [cancel_order]
  · simp [cancel_order]

theorem cancel_order_id_match_witness :
    cancel_order "0xabc" "0xabc" = true ∧ cancel_order "0xabc" "0xdef" = false :=
  ⟨(cancel_order_id_match "0xabc" "0xabc").1.mpr rfl,
    (cancel_order_id_match "0xabc" "0xdef").2.mpr (by decide)⟩

/-- C5: get_orders returns normalized Orders for exactly those raw orders
whose status equals OPEN, excluding every other status. -/
theorem get_orders_exactly_open :
    ∀ (orders : List RawOrder) (pair : String) (market_info : MarketInfo) (o : Order),
      o ∈ get_orders orders pair market_info
        ↔ ∃ raw, raw ∈ orders ∧ raw.status = "OPEN"
            ∧ o = DydxOrder.from_message raw pair market_info := by
  intro orders pair market_info o
  unfold get_orders
  simp only [List.mem_map, List.mem_filter, beq_iff_eq]
  constructor
  · rintro ⟨raw, ⟨hmem, hst⟩, heq⟩
    exact ⟨raw, hmem, hst, heq.symm⟩
  · rintro ⟨raw, hmem, hst, heq⟩
    exact ⟨raw, ⟨hmem, hst⟩, heq.symm⟩

/-- C6: on page 1, get_all_trades returns normalized Trades for exactly
those fills whose status equals CONFIRMED, excluding every other status. -/
theorem get_all_trades_exactly_confirmed :
    ∀ (fills : List RawFill) (pair : String) (market_info : MarketInfo),
      ∃ ts, get_all_trades 1 fills pair market_info = some ts
        ∧ ∀ t : Trade,
            t ∈ ts ↔ ∃ f, f ∈ fills ∧ f.status = "CONFIRMED"
              ∧ t = DydxTrade.from_message f pair market_info := by
  intro fills pair market_info
  refine ⟨_, by unfold get_all_trades; rw [if_pos rfl], ?_⟩
  intro t
  simp only [List.mem_map, List.mem_filter, beq_iff_eq]
  constructor
  · rintro ⟨f, ⟨hmem, hst⟩, heq⟩
    exact ⟨f, hmem, hst, heq.symm⟩
  · rintro ⟨f, hmem, hst, heq⟩
    exact ⟨f, ⟨hmem, hst⟩, heq.symm⟩

/-- C7: get_all_trades passes its precondition check exactly when
page_number = 1; every other page_number is rejected before any fill is
processed. -/
theorem get_all_trades_page_guard :
    ∀ (page_number : ℤ) (fills : List RawFill) (pair : String)
      (market_info : MarketInfo),
      (get_all_trades page_number fills pair market_info).isSome
        ↔ page_number = 1 := by
  intro page_number fills pair market_info
  unfold get_all_trades
  by_cases h : page_number = 1
  · simp [h]
  · simp [h]

/-- C9: the normalized Order amount is the absolute value of the truncated
raw baseAmount divided by 10^18, independent of the market metadata, and is
always non-negative. -/
theorem order_amount_direct_wei :
    ∀ (item : RawOrder) (pair : String) (market_info market_info₂ : MarketInfo),
      (DydxOrder.from_message item pair market_info).amount
          = ((|pyTrunc item.baseAmount| : ℤ) : ℚ) / (10:ℚ) ^ (18:ℕ)
      ∧ (DydxOrder.from_message item pair market_info).amount
          = (DydxOrder.from_message item pair market_info₂).amount
      ∧ 0 ≤ (DydxOrder.from_message item pair market_info).amount := by
  intro item pair market_info market_info₂
  refine ⟨rfl, rfl, ?_⟩
  show (0:ℚ) ≤ from_wei_ether |pyTrunc item.baseAmount|
  unfold from_wei_ether
  positivity

/-- C10: a normalized Trade takes its pair from the raw fill's market field,
while a normalized Order takes the caller-requested pair. -/
theorem trade_pair_vs_order_pair :
    (∀ (trade : RawFill) (pair : String) (market_info : MarketInfo),
        (DydxTrade.from_message trade pair market_info).pair = trade.market)
    ∧ (∀ (item : RawOrder) (pair : String) (market_info : MarketInfo),
        (DydxOrder.from_message item pair market_info).pair = pair)
    ∧ (∀ (fills : List RawFill) (pair : String) (market_info : MarketInfo),
        (get_trades fills pair market_info).map Trade.pair
          = fills.map RawFill.market)
    ∧ (∀ (orders : List RawOrder) (pair : String) (market_info : MarketInfo),
        (get_orders orders pair market_info).map Order.pair
          = (orders.filter fun order => order.status == "OPEN").map fun _ => pair) := by
  refine ⟨fun trade pair market_info => rfl, fun item pair market_info => rfl, ?_, ?_⟩
  · intro fills pair market_info
    unfold get_trades
    rw [List.map_map]
    rfl
  · intro orders pair market_info
    unfold get_orders
    rw [List.map_map]
    rfl

/-- C1: place_order submits the caller price rescaled by 10^(−(18−d)) and
rounded half-even to the tick-size decimal count; composed with the
get_orders scaling (× 10^(18−d)) the two transformations are exact inverses
whenever the rounding leaves the scaled price unchanged. -/
theorem place_order_price_inverse (market_info : MarketInfo) (p : ℚ) :
    place_order_price market_info p
        = roundToDecimals market_info.tickDecimals
            (p * pow10 (-(18 - market_info.quoteDecimals)))
    ∧ ∀ (item : RawOrder) (pair : String),
        item.price = place_order_price market_info p →
        roundToDecimals market_info.tickDecimals
            (p * pow10 (-(18 - market_info.quoteDecimals)))
          = p * pow10 (-(18 - market_info.quoteDecimals)) →
        (DydxOrder.from_message item pair market_info).price = p := by
  have hexp : (18 - market_info.quoteDecimals) * (-1)
      = -(18 - market_info.quoteDecimals) := by ring
  constructor
  · unfold place_order_price
    rw [hexp]
  · intro item pair h1 h2
    have hpr : (DydxOrder.from_message item pair market_info).price
        = item.price * pow10 (18 - market_info.quoteDecimals) := rfl
    rw [hpr, h1]
    unfold place_order_price
    rw [hexp, h2, mul_assoc, pow10_neg_mul_pow10, mul_one]

theorem place_order_price_inverse_witness :
    (DydxOrder.from_message ⟨"order-1", 0, "SELL", 5, 0, "OPEN"⟩ "WETH-USDC"
        ⟨6, 2, 2⟩).price = 5000000000000 :=
  (place_order_price_inverse ⟨6, 2, 2⟩ 5000000000000).2
    ⟨"order-1", 0, "SELL", 5, 0, "OPEN"⟩ "WETH-USDC"
    (by norm_num [place_order_price, roundToDecimals, roundHalfEven, ratFloor, pow10])
    (by norm_num [roundToDecimals, roundHalfEven, ratFloor, pow10])

/-- C3: balance conversion preserves sign and honors the asset decimal
count: a wire balance of −1,000,000 on the 6-decimal (USDC) path yields −1
(mwei scaling, not the ether scaling −10^(−12)), and for every integer wire
value the derived amount is negative iff the wire value is negative. -/
theorem balance_sign_and_decimals :
    convert_balance_to_wad ⟨(-1000000 : ℚ)⟩ 6 = -1
    ∧ convert_balance_to_wad ⟨(-1000000 : ℚ)⟩ 18 = -(1 / 1000000000000)
    ∧ ∀ (n : ℤ) (decimals : ℤ),
        (convert_balance_to_wad ⟨(n : ℚ)⟩ decimals < 0 ↔ n < 0) := by
  refine ⟨?_, ?_, ?_⟩
  · norm_num [convert_balance_to_wad, from_wei_ether, from_wei_mwei, pyTrunc]
  · norm_num [convert_balance_to_wad, from_wei_ether, from_wei_mwei, pyTrunc]
  · intro n decimals
    unfold convert_balance_to_wad from_wei_ether from_wei_mwei
    simp only [pyTrunc_intCast]
    by_cases h : n < 0
    · have hq : ((n : ℤ) : ℚ) < 0 := by exact_mod_cast h
      rw [if_pos hq]
      refine iff_of_true ?_ h
      have h1 : (1:ℚ) ≤ ((|n| : ℤ) : ℚ) := by
        have hn : (1:ℤ) ≤ |n| := Int.one_le_abs (by omega)
        exact_mod_cast hn
      have hpos : ∀ (k : ℕ), (0:ℚ) < ((|n| : ℤ) : ℚ) / (10:ℚ) ^ k := by
        intro k
        exact div_pos (lt_of_lt_of_le one_pos h1) (by positivity)
      by_cases h6 : decimals = 6
      · rw [if_pos h6]
        exact neg_lt_zero.mpr (hpos 6)
      · rw [if_neg h6]
        exact neg_lt_zero.mpr (hpos 18)
    · have hq : ¬ ((n : ℤ) : ℚ) < 0 := by exact_mod_cast h
      rw [if_neg hq]
      refine iff_of_false ?_ h
      by_cases h6 : decimals = 6
      · rw [if_pos h6]
        exact not_lt.mpr (by positivity)
      · rw [if_neg h6]
        exact not_lt.mpr (by positivity)

/-- C8: a balance entry whose market id is none of the four known ids is
still converted (no error): it appears in the output with the default
18-decimal conversion and with no currency label. -/
theorem balances_unknown_id_passthrough :
    ∀ (market_id : ℤ) (balance : BalanceIn) (balances : List (ℤ × BalanceIn)),
      market_id ≠ MARKET_ETH → market_id ≠ MARKET_SAI →
      market_id ≠ MARKET_USDC → market_id ≠ MARKET_DAI →
      (balance_entry market_id balance
          = { wei := balance.wei, currency := none,
              wad := convert_balance_to_wad balance 18 })
      ∧ ((market_id, balance) ∈ balances →
          { wei := balance.wei, currency := none,
            wad := convert_balance_to_wad balance 18 } ∈ balances_to_list balances) := by
  intro market_id balance balances h0 h1 h2 h3
  have hentry : balance_entry market_id balance
      = { wei := balance.wei, currency := none,
          wad := convert_balance_to_wad balance 18 } := by
    unfold balance_entry
    rw [if_neg h0, if_neg h1, if_neg h2, if_neg h3]
  refine ⟨hentry, fun hmem => ?_⟩
  unfold balances_to_list
  rw [← hentry]
  exact List.mem_map.mpr ⟨(market_id, balance), hmem, rfl⟩

theorem balances_unknown_id_passthrough_witness :
    balance_entry 99 ⟨5⟩
        = { wei := (5:ℚ), currency := none, wad := convert_balance_to_wad ⟨5⟩ 18 }
    ∧ ({ wei := (5:ℚ), currency := none,
          wad := convert_balance_to_wad ⟨5⟩ 18 } : BalanceOut)
        ∈ balances_to_list [(99, ⟨5⟩)] := by
  have h := balances_unknown_id_passthrough 99 ⟨5⟩ [(99, ⟨5⟩)]
    (by decide) (by decide) (by decide) (by decide)
  exact ⟨h.1, h.2 (by simp)⟩

end Dydx
